import Mathlib

/-!
# Shallow embedding of the transaction-extraction core of `app.py`

The repository's single source file defines `extract_transactions`, which
scans the text of each page of a brokerage statement, isolates the
transaction block between fixed marker strings, splits it into candidate
chunks at the action keywords, recognises each chunk with a backtracking
regular expression, and coerces the captured fields into a record.

Text is modelled as `List Char` (Python `str` indices coincide with char
indices).  Python floats produced by `float(...)` on the digit/dot/sign
strings that occur here are modelled exactly as rationals; `int(...)` on
such a value is truncation toward zero.  The regular-expression pattern is
embedded as a specialised backtracking matcher with Python's semantics:
greedy pieces try longest first, lazy pieces shortest first, the rightmost
quantifier backtracks first, and `search` tries start positions left to
right.  The character classes `\d` and `\s` are modelled by their ASCII
parts (the inputs relevant here contain no non-ASCII digits or spaces).
The upstream PDF-to-text primitive is out of scope: a document is either
unreadable (`none`) or a list of page texts.
-/

set_option maxRecDepth 20000

namespace StockApp

/-- ASCII decimal digit, the `\d` of the pattern. -/
def isDigitB (c : Char) : Bool := '0' ≤ c && c ≤ '9'

/-- ASCII uppercase letter, the `[A-Z]` of the pattern. -/
def isUpperB (c : Char) : Bool := 'A' ≤ c && c ≤ 'Z'

/-- The character class `[\d,.]` of the pattern. -/
def isNumChar (c : Char) : Bool := isDigitB c || c == ',' || c == '.'

/-- Whitespace, as used by `str.split`, `str.strip` and the class `\s`. -/
def isWs (c : Char) : Bool :=
  c == ' ' || c == '\t' || c == '\n' || c == '\r' || c == '\x0b' || c == '\x0c'

/-- The sell action keyword `賣出平倉`. -/
def kwSell : List Char := ['賣', '出', '平', '倉']

/-- The buy action keyword `買入開倉`. -/
def kwBuy : List Char := ['買', '入', '開', '倉']

/-- The section marker `交易-股票和股票期權` tested on every page. -/
def sectionMarker : List Char := ['交', '易', '-', '股', '票', '和', '股', '票', '期', '權']

/-- The column-header marker `變動金額` (start of the transaction block). -/
def startMarker : List Char := ['變', '動', '金', '額']

/-- The primary terminal marker `成交金額合計:`. -/
def endMarker1 : List Char := ['成', '交', '金', '額', '合', '計', ':']

/-- The fallback terminal marker `交易-基金`. -/
def endMarker2 : List Char := ['交', '易', '-', '基', '金']

/-- Helper for `findSub`: first index `≥ i` at which `pat` occurs. -/
def findSubAux (pat : List Char) : List Char → Nat → Option Nat
  | [], i => if pat.isEmpty then some i else none
  | c :: t, i => if pat.isPrefixOf (c :: t) then some i else findSubAux pat t (i + 1)

/-- Python `str.find`: index of the first occurrence of `pat` in `hay`,
`none` standing for Python's `-1`. -/
def findSub (hay pat : List Char) : Option Nat := findSubAux pat hay 0

/-- Python's `in` test on strings. -/
def containsSub (hay pat : List Char) : Bool := (findSub hay pat).isSome

/-- Does one of the two action keywords start here?  This is the zero-width
split condition of `re.split(r'(?=賣出平倉|買入開倉)', ...)`. -/
def kwStarts (l : List Char) : Bool := kwSell.isPrefixOf l || kwBuy.isPrefixOf l

/-- Helper for `splitKw`: accumulate the current piece (reversed) and cut
immediately before every position where an action keyword starts. -/
def splitKwAux : List Char → List Char → List (List Char)
  | [], acc => [acc.reverse]
  | c :: t, acc =>
    if kwStarts (c :: t) then acc.reverse :: splitKwAux t [c] else splitKwAux t (c :: acc)

/-- `re.split(r'(?=賣出平倉|買入開倉)', l)`: split at a zero-width boundary
before each keyword occurrence, keeping the keyword with the following
piece.  A keyword at position 0 yields a leading empty piece, as in Python. -/
def splitKw (l : List Char) : List (List Char) := splitKwAux l []

/-- Helper for `pyWords`: split on whitespace runs, dropping empty words. -/
def wordsByAux : List Char → List Char → List (List Char)
  | [], acc => if acc.isEmpty then [] else [acc.reverse]
  | c :: t, acc =>
    if isWs c then
      (if acc.isEmpty then wordsByAux t [] else acc.reverse :: wordsByAux t [])
    else wordsByAux t (c :: acc)

/-- Python `str.split()` with no argument: maximal nonempty runs of
non-whitespace characters. -/
def pyWords (l : List Char) : List (List Char) := wordsByAux l []

/-- `' '.join(l.split())`: collapse all whitespace (including embedded line
breaks) to single spaces. -/
def cleanChunk (l : List Char) : List Char := List.intercalate [' '] (pyWords l)

/-- All splits `(pre, suf)` of `l` whose prefix consists of characters
satisfying `p`, ordered shortest prefix first (the empty prefix included). -/
def splitsAsc (p : Char → Bool) : List Char → List (List Char × List Char)
  | [] => [([], [])]
  | c :: t =>
    ([], c :: t) :: if p c then (splitsAsc p t).map (fun x => (c :: x.1, x.2)) else []

/-- Greedy `X+` over a character class: the nonempty prefixes, longest first. -/
def repGreedy (p : Char → Bool) (l : List Char) : List (List Char × List Char) :=
  ((splitsAsc p l).reverse).filter (fun x => !x.1.isEmpty)

/-- Lazy `.*?`: all prefixes avoiding a newline, shortest first. -/
def dotLazy (l : List Char) : List (List Char × List Char) :=
  splitsAsc (fun c => c != '\n') l

/-- Greedy `\s+`. -/
def spacesGreedy (l : List Char) : List (List Char × List Char) := repGreedy isWs l

/-- Greedy `[\d,.]+`. -/
def numGreedy (l : List Char) : List (List Char × List Char) := repGreedy isNumChar l

/-- `-?[\d,.]+`: the greedy optional sign tries to consume `-` first. -/
def signedNumGreedy (l : List Char) : List (List Char × List Char) :=
  match l with
  | '-' :: t => ((numGreedy t).map (fun x => ('-' :: x.1, x.2))) ++ numGreedy ('-' :: t)
  | _ => numGreedy l

/-- The alternation `(賣出平倉|買入開倉)` at the start of the pattern. -/
def matchKeyword (l : List Char) : Option (List Char × List Char) :=
  if kwSell.isPrefixOf l then some (kwSell, l.drop 4)
  else if kwBuy.isPrefixOf l then some (kwBuy, l.drop 4)
  else none

/-- `([A-Z]{3})`: exactly three ASCII uppercase letters. -/
def take3Upper : List Char → Option (List Char × List Char)
  | a :: b :: c :: t =>
    if isUpperB a && isUpperB b && isUpperB c then some ([a, b, c], t) else none
  | _ => none

/-- The seven capture groups of the recogniser's pattern. -/
structure MatchGroups where
  action : List Char
  name : List Char
  currency : List Char
  val1 : List Char
  val2 : List Char
  amount : List Char
  change : List Char
  deriving DecidableEq, Repr

/-- Attempt to match the pattern
`(賣出平倉|買入開倉)\s+(.*?)\s+([A-Z]{3})\s+.*?([\d,.]+)\s+([\d,.]+)\s+(-?[\d,.]+)\s+(-?[\d,.]+)`
at the start of `l`, with Python's backtracking order: the first success in
this enumeration is exactly the match Python reports. -/
def matchAt (l : List Char) : Option MatchGroups :=
  (matchKeyword l).bind fun kr =>
  (spacesGreedy kr.2).findSome? fun s1 =>
  (dotLazy s1.2).findSome? fun nm =>
  (spacesGreedy nm.2).findSome? fun s2 =>
  (take3Upper s2.2).bind fun cr =>
  (spacesGreedy cr.2).findSome? fun s3 =>
  (dotLazy s3.2).findSome? fun gap =>
  (numGreedy gap.2).findSome? fun v1 =>
  (spacesGreedy v1.2).findSome? fun s4 =>
  (numGreedy s4.2).findSome? fun v2 =>
  (spacesGreedy v2.2).findSome? fun s5 =>
  (signedNumGreedy s5.2).findSome? fun am =>
  (spacesGreedy am.2).findSome? fun s6 =>
  (signedNumGreedy s6.2).findSome? fun ch =>
  some ⟨kr.1, nm.1, cr.1, v1.1, v2.1, am.1, ch.1⟩

/-- `pattern.search(l)`: try every start position, leftmost first. -/
def reSearch (l : List Char) : Option MatchGroups := l.tails.findSome? matchAt

/-- Digits to a natural number, most significant first. -/
def digitsToNatAux : List Char → Nat → Nat
  | [], n => n
  | c :: t, n => digitsToNatAux t (n * 10 + (c.toNat - '0'.toNat))

/-- Value of a digit string. -/
def digitsToNat (l : List Char) : Nat := digitsToNatAux l 0

/-- Split a string at every `.` character. -/
def splitOnDot : List Char → List (List Char)
  | [] => [[]]
  | c :: t =>
    if c == '.' then [] :: splitOnDot t
    else
      match splitOnDot t with
      | [] => [[c]]
      | h :: r => (c :: h) :: r

/-- Python `float(...)` on an unsigned literal made of digits and dots:
at most one dot, at least one digit, exact rational value.  (Exponent and
special forms cannot arise from the pattern's character classes.) -/
def parseMantissa (l : List Char) : Option ℚ :=
  match splitOnDot l with
  | [a] => if !a.isEmpty && a.all isDigitB then some (mkRat (digitsToNat a) 1) else none
  | [a, b] =>
    if !(a.isEmpty && b.isEmpty) && a.all isDigitB && b.all isDigitB then
      some (mkRat (digitsToNat a * 10 ^ b.length + digitsToNat b) (10 ^ b.length))
    else none
  | _ => none

/-- Python `float(...)` with an optional leading sign, `none` standing for
a raised `ValueError`. -/
def parsePyFloat : List Char → Option ℚ
  | '-' :: t => (parseMantissa t).map (fun q => -q)
  | '+' :: t => parseMantissa t
  | l => parseMantissa l

/-- Python `int()` applied to a float value: truncation toward zero. -/
def pyInt (q : ℚ) : Int := Int.tdiv q.num (q.den : Int)

/-- The `"Buy"` / `"Sell"` action string stored in a record. -/
inductive PyAction where
  | Buy
  | Sell
  deriving DecidableEq, Repr

/-- One extracted transaction, the dictionary appended to `transactions`. -/
structure TransactionRecord where
  action : PyAction
  stockName : List Char
  quantity : Int
  price : ℚ
  amount : ℚ
  currency : List Char
  netChange : ℚ
  deriving DecidableEq, Repr

/-- `str.replace(',', '')`. -/
def stripCommas (l : List Char) : List Char := l.filter (fun c => c != ',')

/-- Python `'.' in s`. -/
def dotIn (l : List Char) : Bool := l.contains '.'

/-- Lines 73–107 of `app.py`: strip digit-grouping commas, map the action
keyword, parse the four numerics (a failure skips the record), pick the
price as whichever of the first two raw numerics contains a dot, and
truncate the other to an integer quantity. -/
def buildRecord (g : MatchGroups) : Option TransactionRecord :=
  let val1Str := stripCommas g.val1
  let val2Str := stripCommas g.val2
  let amountStr := stripCommas g.amount
  let changeStr := stripCommas g.change
  let action := if containsSub g.action kwSell then PyAction.Sell else PyAction.Buy
  match parsePyFloat val1Str, parsePyFloat val2Str,
        parsePyFloat amountStr, parsePyFloat changeStr with
  | some val1, some val2, some amount, some change =>
    let price := if dotIn val1Str then val1 else val2
    let quantity := if dotIn val1Str then val2 else val1
    some ⟨action, g.name, pyInt quantity, price, amount, g.currency, change⟩
  | _, _, _, _ => none

/-- Process one candidate chunk: skip it when it strips to nothing, else
clean it, run the pattern search and build the record. -/
def extractChunk (l : List Char) : Option TransactionRecord :=
  if l.all isWs then none else (reSearch (cleanChunk l)).bind buildRecord

/-- Python `text[s:e]`. -/
def sliceList (l : List Char) (s e : Nat) : List Char := (l.take e).drop s

/-- Section Locator (lines 28–50 of `app.py`): a page without the section
marker or without the column-header marker contributes nothing; otherwise
the block runs from just after the column-header marker to the primary
terminal marker, else to the fallback terminal marker, else to the end of
the page text. -/
def locateBlock (text : List Char) : Option (List Char) :=
  if containsSub text sectionMarker then
    match findSub text startMarker with
    | none => none
    | some i0 =>
      let s := i0 + startMarker.length
      some (match findSub text endMarker1 with
        | some e => sliceList text s e
        | none =>
          match findSub text endMarker2 with
          | some e => sliceList text s e
          | none => text.drop s)
  else none

/-- Records recovered from one page's text. -/
def processPage (text : List Char) : List TransactionRecord :=
  match locateBlock text with
  | none => []
  | some block => (splitKw block).filterMap extractChunk

/-- All records of a readable document, page order then discovery order. -/
def extractRecords (pages : List (List Char)) : List TransactionRecord :=
  (pages.map processPage).flatten

/-- The full entry point.  `none` input models a byte stream that
`pdfplumber` cannot open.  The first component is the returned value
(`none` both for an unreadable document and for a document with no
recognised records); the second component records whether the
`st.error(...)` message was emitted. -/
def extract_transactions (doc : Option (List (List Char))) :
    Option (List TransactionRecord) × Bool :=
  match doc with
  | none => (none, true)
  | some pages =>
    let recs := extractRecords pages
    (if recs.isEmpty then none else some recs, false)

/-! ## Helper lemmas -/

/-- Removing the digit-grouping commas does not change whether a literal
contains a decimal point. -/
theorem dotIn_stripCommas (l : List Char) : dotIn (stripCommas l) = dotIn l := by
  induction l with
  | nil => rfl
  | cons c t ih =>
    by_cases hc : c = ','
    · subst hc
      simp only [stripCommas, dotIn] at ih ⊢
      simp [ih]
    · have hb : (c != ',') = true := by simpa using hc
      by_cases hd : c = '.'
      · subst hd
        simp [stripCommas, dotIn]
      · have : ('.' == c) = false := by simpa using fun h => hd h.symm
        simp only [stripCommas, List.filter_cons, hb, if_true, dotIn, List.contains_cons, this,
          Bool.false_or]
        simp only [stripCommas, dotIn] at ih
        simp [ih]

/-- Forward evaluation of `buildRecord` when all four numeric parses
succeed: the record is built, the price is the first raw numeric exactly
when its comma-stripped literal contains a dot, and the quantity is the
other value truncated. -/
theorem buildRecord_eq_some (g : MatchGroups) (q1 q2 q3 q4 : ℚ)
    (h1 : parsePyFloat (stripCommas g.val1) = some q1)
    (h2 : parsePyFloat (stripCommas g.val2) = some q2)
    (h3 : parsePyFloat (stripCommas g.amount) = some q3)
    (h4 : parsePyFloat (stripCommas g.change) = some q4) :
    buildRecord g =
      some ⟨if containsSub g.action kwSell then PyAction.Sell else PyAction.Buy, g.name,
        pyInt (if dotIn (stripCommas g.val1) then q2 else q1),
        if dotIn (stripCommas g.val1) then q1 else q2, q3, g.currency, q4⟩ := by
  simp [buildRecord, h1, h2, h3, h4]

/-- Inversion of `buildRecord`: a produced record determines the four
parsed values and all of its fields. -/
theorem buildRecord_inv (g : MatchGroups) (r : TransactionRecord)
    (hb : buildRecord g = some r) :
    ∃ q1 q2 q3 q4,
      parsePyFloat (stripCommas g.val1) = some q1 ∧
      parsePyFloat (stripCommas g.val2) = some q2 ∧
      parsePyFloat (stripCommas g.amount) = some q3 ∧
      parsePyFloat (stripCommas g.change) = some q4 ∧
      r = ⟨if containsSub g.action kwSell then PyAction.Sell else PyAction.Buy, g.name,
        pyInt (if dotIn (stripCommas g.val1) then q2 else q1),
        if dotIn (stripCommas g.val1) then q1 else q2, q3, g.currency, q4⟩ := by
  simp only [buildRecord] at hb
  cases h1 : parsePyFloat (stripCommas g.val1) with
  | none => rw [h1] at hb; simp at hb
  | some q1 =>
    cases h2 : parsePyFloat (stripCommas g.val2) with
    | none => rw [h1, h2] at hb; simp at hb
    | some q2 =>
      cases h3 : parsePyFloat (stripCommas g.amount) with
      | none => rw [h1, h2, h3] at hb; simp at hb
      | some q3 =>
        cases h4 : parsePyFloat (stripCommas g.change) with
        | none => rw [h1, h2, h3, h4] at hb; simp at hb
        | some q4 =>
          rw [h1, h2, h3, h4] at hb
          simp only [Option.some.injEq] at hb
          exact ⟨q1, q2, q3, q4, rfl, rfl, rfl, rfl, hb.symm⟩

/-! ## C1 — both-or-neither decimal separator -/

/-- C1 counterexample: the candidate `買入開倉 A HKD 2,000 100 300 -50` is
recognised, neither of its two unordered numeric tokens contains a decimal
separator, and yet a `TransactionRecord` is produced (with the second token
as price), contradicting the claim that such candidates are discarded. -/
theorem c1_counterexample :
    reSearch (cleanChunk (("買入開倉 A HKD 2,000 100 300 -50").data)) =
      some ⟨kwBuy, ['A'], ("HKD").data, ("2,000").data, ['1', '0', '0'], ['3', '0', '0'],
        ['-', '5', '0']⟩ ∧
    dotIn (("2,000").data) = false ∧ dotIn (['1', '0', '0']) = false ∧
    extractChunk (("買入開倉 A HKD 2,000 100 300 -50").data) =
      some ⟨PyAction.Buy, ['A'], 2000, 100, 300, ("HKD").data, -50⟩ := by
  exact ⟨by decide, by decide, by decide, by decide⟩

/-- C1 amended: for a recognised candidate whose two unordered numeric
tokens both contain a decimal separator or both lack one, the candidate is
NOT rejected — provided the four numeric parses succeed a record is still
appended, whose price is the first token when it contains a dot and the
second token otherwise, the other value being truncated into quantity. -/
theorem c1_tie_still_recorded (g : MatchGroups) (q1 q2 q3 q4 : ℚ)
    (h1 : parsePyFloat (stripCommas g.val1) = some q1)
    (h2 : parsePyFloat (stripCommas g.val2) = some q2)
    (h3 : parsePyFloat (stripCommas g.amount) = some q3)
    (h4 : parsePyFloat (stripCommas g.change) = some q4)
    (_hx : dotIn g.val1 = dotIn g.val2) :
    ∃ r, buildRecord g = some r ∧
      r.price = (if dotIn g.val1 then q1 else q2) ∧
      r.quantity = pyInt (if dotIn g.val1 then q2 else q1) := by
  refine ⟨_, buildRecord_eq_some g q1 q2 q3 q4 h1 h2 h3 h4, ?_, ?_⟩ <;>
    simp [dotIn_stripCommas]

/-- Witness for C1: the amended theorem applied to the counterexample's
groups, where neither numeric token has a decimal separator. -/
theorem c1_witness :
    ∃ r, buildRecord ⟨kwBuy, ['A'], ("HKD").data, ("2,000").data, ['1', '0', '0'],
        ['3', '0', '0'], ['-', '5', '0']⟩ = some r ∧
      r.price = 100 ∧ r.quantity = pyInt 2000 := by
  have h := c1_tie_still_recorded
    ⟨kwBuy, ['A'], ("HKD").data, ("2,000").data, ['1', '0', '0'], ['3', '0', '0'],
      ['-', '5', '0']⟩
    2000 100 300 (-50) (by decide) (by decide) (by decide) (by decide) (by decide)
  simpa using h

/-! ## C2 — exactly one decimal separator -/

/-- C2: for a recognised candidate in which exactly one of the two
unordered numeric tokens contains a decimal point in its raw literal, the
produced record assigns that token's value to `price` and the other
token's value, truncated to an integer, to `quantity`, regardless of which
position the decimal-bearing token occupies. -/
theorem c2_price_is_decimal_token (g : MatchGroups) (r : TransactionRecord)
    (hb : buildRecord g = some r) (_hx : dotIn g.val1 ≠ dotIn g.val2) :
    ∃ qp qq,
      parsePyFloat (stripCommas (if dotIn g.val1 then g.val1 else g.val2)) = some qp ∧
      parsePyFloat (stripCommas (if dotIn g.val1 then g.val2 else g.val1)) = some qq ∧
      r.price = qp ∧ r.quantity = pyInt qq := by
  obtain ⟨q1, q2, q3, q4, h1, h2, h3, h4, hr⟩ := buildRecord_inv g r hb
  cases hd : dotIn g.val1 with
  | true =>
    refine ⟨q1, q2, by simpa [hd] using h1, by simpa [hd] using h2, ?_, ?_⟩ <;>
      simp [hr, dotIn_stripCommas, hd]
  | false =>
    refine ⟨q2, q1, by simpa [hd] using h2, by simpa [hd] using h1, ?_, ?_⟩ <;>
      simp [hr, dotIn_stripCommas, hd]

/-- Witness for C2: the swapped-order scenario `... HKD 2,000 100.50 ...`
still prices at 100.50 and quantifies 2000. -/
theorem c2_witness :
    ∃ qp qq,
      parsePyFloat (stripCommas (if dotIn (("100.50").data) then ("100.50").data
        else ("2,000").data)) = some qp ∧
      parsePyFloat (stripCommas (if dotIn (("100.50").data) then ("2,000").data
        else ("100.50").data)) = some qq ∧
      (TransactionRecord.mk PyAction.Buy (("ABC Corp (00001)").data) 2000 (mkRat 201 2)
        201000 (("HKD").data) (Rat.neg (mkRat 201 4))).price = qp ∧
      (TransactionRecord.mk PyAction.Buy (("ABC Corp (00001)").data) 2000 (mkRat 201 2)
        201000 (("HKD").data) (Rat.neg (mkRat 201 4))).quantity = pyInt qq := by
  have h := c2_price_is_decimal_token
    ⟨kwBuy, ("ABC Corp (00001)").data, ("HKD").data, ("2,000").data, ("100.50").data,
      ("201,000.00").data, ("-50.25").data⟩
    (TransactionRecord.mk PyAction.Buy (("ABC Corp (00001)").data) 2000 (mkRat 201 2)
      201000 (("HKD").data) (Rat.neg (mkRat 201 4)))
    (by decide) (by decide)
  simpa using h

/-! ## C3 — the concrete buy line -/

/-- Page used in the C3 scenario: a section page whose transaction block
holds the single line
`買入開倉 ABC Corp (00001) HKD 100.50 2,000 201,000.00 -50.25`. -/
def pageC3 : List Char :=
  ("交易-股票和股票期權\n日期 說明 貨幣 數量 價格 成交金額 變動金額\n買入開倉 ABC Corp (00001) HKD 100.50 2,000 201,000.00 -50.25\n成交金額合計: 201,000.00").data

/-- C3: on a page whose transaction block is the candidate line
`買入開倉 ABC Corp (00001) HKD 100.50 2,000 201,000.00 -50.25` the pipeline
produces exactly one record: Buy, instrument `ABC Corp (00001)`, currency
`HKD`, quantity 2000, price 100.50, amount 201000.00 and net change
-50.25. -/
theorem c3_concrete_line :
    extract_transactions (some [pageC3]) =
      (some [⟨PyAction.Buy, ("ABC Corp (00001)").data, 2000, mkRat 201 2, 201000,
        ("HKD").data, Rat.neg (mkRat 201 4)⟩], false) := by
  decide

/-! ## C4 — multi-line instrument labels -/

/-- Unfolding equation for `wordsByAux` on a cons cell. -/
theorem wordsByAux_cons (c : Char) (t acc : List Char) :
    wordsByAux (c :: t) acc =
      if isWs c then
        (if acc.isEmpty then wordsByAux t [] else acc.reverse :: wordsByAux t [])
      else wordsByAux t (c :: acc) := rfl

/-- Inside a chunk, `str.split()` treats an embedded newline exactly like a
space. -/
theorem wordsByAux_newline (b : List Char) :
    ∀ a acc, wordsByAux (a ++ '\n' :: b) acc = wordsByAux (a ++ ' ' :: b) acc := by
  intro a
  induction a with
  | nil =>
    intro acc
    rw [List.nil_append, List.nil_append, wordsByAux_cons, wordsByAux_cons]
    simp [isWs]
  | cons c t ih =>
    intro acc
    rw [List.cons_append, List.cons_append, wordsByAux_cons, wordsByAux_cons]
    simp [ih]

/-- Chunk processing cannot tell an embedded newline from a space: the
whitespace collapse erases the line structure before recognition. -/
theorem extractChunk_newline (a b : List Char) :
    extractChunk (a ++ '\n' :: b) = extractChunk (a ++ ' ' :: b) := by
  unfold extractChunk
  have h1 : (a ++ '\n' :: b).all isWs = (a ++ ' ' :: b).all isWs := by
    simp [List.all_append, isWs]
  have h2 : cleanChunk (a ++ '\n' :: b) = cleanChunk (a ++ ' ' :: b) := by
    unfold cleanChunk pyWords
    rw [wordsByAux_newline]
  rw [h1, h2]

/-- C4 counterexample: for the two-physical-line transaction
`買入開倉 ABC Corp⏎(00001) HKD ...` a single record is recovered, but its
instrument label is NOT the first physical line `ABC Corp`: the trailing
line is kept, joined by a space. -/
theorem c4_counterexample :
    ∃ r,
      extractChunk (("買入開倉 ABC Corp\n(00001) HKD 100.50 2,000 201,000.00 -50.25").data) =
        some r ∧
      r.stockName ≠ ("ABC Corp").data :=
  ⟨⟨PyAction.Buy, ("ABC Corp (00001)").data, 2000, mkRat 201 2, 201000, ("HKD").data,
    Rat.neg (mkRat 201 4)⟩, by decide, by decide⟩

/-- C4 amended: a transaction whose instrument label spans two physical
lines is recovered as a single record whose label is the physical lines
joined by a single space — the trailing line is retained, not discarded
(a newline inside a chunk is indistinguishable from a space). -/
theorem c4_label_joined :
    (∀ a b, extractChunk (a ++ '\n' :: b) = extractChunk (a ++ ' ' :: b)) ∧
    extractChunk (("買入開倉 ABC Corp\n(00001) HKD 100.50 2,000 201,000.00 -50.25").data) =
      some ⟨PyAction.Buy, ("ABC Corp (00001)").data, 2000, mkRat 201 2, 201000,
        ("HKD").data, Rat.neg (mkRat 201 4)⟩ :=
  ⟨extractChunk_newline, by decide⟩

/-- Witness for C4: the newline/space equivalence applied at a concrete
split of the two-line candidate. -/
theorem c4_witness :
    extractChunk (("買入開倉 ABC Corp").data ++ '\n' :: ("(00001) HKD 100.50 2,000 201,000.00 -50.25").data) =
      extractChunk (("買入開倉 ABC Corp").data ++ ' ' :: ("(00001) HKD 100.50 2,000 201,000.00 -50.25").data) :=
  c4_label_joined.1 (("買入開倉 ABC Corp").data)
    (("(00001) HKD 100.50 2,000 201,000.00 -50.25").data)

/-! ## C5 — distinguishing unreadable from nothing-found -/

/-- C5 counterexample: the value returned for an unreadable byte stream
and the value returned for a perfectly readable document in which nothing
is recognised are the same `none`; the returned result does not let the
caller tell the two outcomes apart. -/
theorem c5_counterexample :
    (extract_transactions none).1 = (extract_transactions (some [("hello").data])).1 ∧
    (extract_transactions none).1 = none := by
  exact ⟨by decide, rfl⟩

/-- C5 amended: both failure outcomes return the same `none` value — an
unreadable document is distinguishable only through the emitted error
message side effect (the second component), never through the returned
result itself. -/
theorem c5_return_value_conflates :
    (extract_transactions none).1 = none ∧
    (extract_transactions none).2 = true ∧
    (∀ pages, (extract_transactions (some pages)).2 = false) ∧
    (∀ pages, extractRecords pages = [] → (extract_transactions (some pages)).1 = none) := by
  refine ⟨rfl, rfl, fun pages => rfl, fun pages h => ?_⟩
  simp [extract_transactions, h]

/-- Witness for C5: a concrete readable document in which nothing is
recognised returns the same `none` as the unreadable case. -/
theorem c5_witness :
    (extract_transactions (some [("abc").data])).1 = none :=
  c5_return_value_conflates.2.2.2 [("abc").data] (by decide)

/-! ## C6 — section locator sub-range and fallbacks -/

/-- Page used against C6: it contains the section marker and a perfectly
recognisable transaction line, but no column-header marker `變動金額`. -/
def pageC6 : List Char :=
  ("交易-股票和股票期權\n買入開倉 ABC Corp (00001) HKD 100.50 2,000 201,000.00 -50.25\n成交金額合計: 100").data

/-- C6 counterexample: on a page containing the section marker whose
column-header marker is missing, no degraded sub-range is computed — the
page is skipped outright and its (recognisable) transaction line is lost,
contradicting the claim that a missing marker never skips a page. -/
theorem c6_counterexample :
    containsSub pageC6 sectionMarker = true ∧
    findSub pageC6 startMarker = none ∧
    locateBlock pageC6 = none ∧
    processPage pageC6 = [] ∧
    extractChunk (("買入開倉 ABC Corp (00001) HKD 100.50 2,000 201,000.00 -50.25").data) =
      some ⟨PyAction.Buy, ("ABC Corp (00001)").data, 2000, mkRat 201 2, 201000,
        ("HKD").data, Rat.neg (mkRat 201 4)⟩ :=
  ⟨by decide, by decide, by decide, by decide, by decide⟩

/-- C6 amended: on a page containing the section marker AND the
column-header marker, the sub-range runs from just after the column-header
marker to the primary terminal marker; if that is absent, to the fallback
terminal marker; if both are absent, to the end of the page text — a
missing terminal marker degrades the sub-range rather than erroring, but a
missing column-header marker skips the page (see the counterexample). -/
theorem c6_locator_terminal_fallback (text : List Char) (i : Nat)
    (hs : containsSub text sectionMarker = true)
    (hh : findSub text startMarker = some i) :
    (∀ e, findSub text endMarker1 = some e →
      locateBlock text = some (sliceList text (i + startMarker.length) e)) ∧
    (findSub text endMarker1 = none → ∀ e, findSub text endMarker2 = some e →
      locateBlock text = some (sliceList text (i + startMarker.length) e)) ∧
    (findSub text endMarker1 = none → findSub text endMarker2 = none →
      locateBlock text = some (text.drop (i + startMarker.length))) := by
  refine ⟨?_, ?_, ?_⟩
  · intro e he
    simp [locateBlock, hs, hh, he]
  · intro h1 e h2
    simp [locateBlock, hs, hh, h1, h2]
  · intro h1 h2
    simp [locateBlock, hs, hh, h1, h2]

/-- Witness for C6: a page without the primary terminal marker falls back
to the secondary marker `交易-基金`, and the sub-range is the text between
the column-header marker and that fallback marker. -/
theorem c6_witness :
    locateBlock (("交易-股票和股票期權 變動金額買入開倉 B HKD 1 2.5 3 -4交易-基金").data) =
      some (sliceList (("交易-股票和股票期權 變動金額買入開倉 B HKD 1 2.5 3 -4交易-基金").data)
        (11 + startMarker.length) 36) := by
  have h := c6_locator_terminal_fallback
    (("交易-股票和股票期權 變動金額買入開倉 B HKD 1 2.5 3 -4交易-基金").data) 11
    (by decide) (by decide)
  exact h.2.1 (by decide) 36 (by decide)

/-! ## C7 — keyword boundaries -/

/-- Unfolding equation for `splitKwAux` on a cons cell. -/
theorem splitKwAux_cons (c : Char) (t acc : List Char) :
    splitKwAux (c :: t) acc =
      if kwStarts (c :: t) then acc.reverse :: splitKwAux t [c]
      else splitKwAux t (c :: acc) := rfl

/-- The keyword split is a partition: concatenating the pieces restores
the block, so the boundaries are zero-width and no text is lost. -/
theorem splitKwAux_flatten (l : List Char) :
    ∀ acc, (splitKwAux l acc).flatten = acc.reverse ++ l := by
  induction l with
  | nil => intro acc; simp [splitKwAux]
  | cons c t ih =>
    intro acc
    rw [splitKwAux_cons]
    by_cases h : kwStarts (c :: t) = true
    · rw [if_pos h]
      simp [ih]
    · rw [if_neg h]
      simp [ih]

/-- C7: the normalizer splits the located text at a zero-width boundary
immediately before every action keyword, keeping the keyword with the
following chunk (the pieces concatenate back to the block); a `賣出平倉`
keyword immediately followed by a `買入開倉` keyword yields two separate
candidate chunks, and pieces that are empty (or whitespace) after trimming
are discarded and contribute no record. -/
theorem c7_keyword_boundaries :
    (∀ block, (splitKw block).flatten = block) ∧
    splitKw (kwSell ++ kwBuy) = [[], kwSell, kwBuy] ∧
    splitKw (("\n賣出平倉 A HKD 1 2.5 3 -4買入開倉 B HKD 5 6.5 7 -8").data) =
      [['\n'], ("賣出平倉 A HKD 1 2.5 3 -4").data, ("買入開倉 B HKD 5 6.5 7 -8").data] ∧
    (['\n'] : List Char).all isWs = true ∧ extractChunk ['\n'] = none ∧
    ((splitKw (("\n賣出平倉 A HKD 1 2.5 3 -4買入開倉 B HKD 5 6.5 7 -8").data)).filterMap
        extractChunk).length = 2 :=
  ⟨fun block => by simpa [splitKw] using splitKwAux_flatten block [],
    by decide, by decide, by decide, by decide, by decide⟩

/-- Witness for C7: the partition property applied to a concrete block. -/
theorem c7_witness :
    (splitKw (("x賣出平倉y").data)).flatten = ("x賣出平倉y").data :=
  c7_keyword_boundaries.1 (("x賣出平倉y").data)

/-! ## C8 — signs on the numeric fields -/

/-- Members of `splitsAsc p l` have prefixes drawn from the class `p`. -/
theorem mem_splitsAsc (p : Char → Bool) :
    ∀ (l pre suf : List Char), (pre, suf) ∈ splitsAsc p l → pre.all p = true := by
  intro l
  induction l with
  | nil =>
    intro pre suf h
    simp only [splitsAsc, List.mem_singleton, Prod.mk.injEq] at h
    simp [h.1]
  | cons c t ih =>
    intro pre suf h
    simp only [splitsAsc, List.mem_cons, Prod.mk.injEq] at h
    rcases h with ⟨h1, _⟩ | h
    · simp [h1]
    · by_cases hp : p c = true
      · rw [if_pos hp] at h
        rw [List.mem_map] at h
        obtain ⟨x, hx, hx2⟩ := h
        have hx1 := ih x.1 x.2 hx
        cases hx2
        simp [hp, hx1]
      · rw [if_neg hp] at h
        cases h

/-- Members of a greedy `X+` repetition are nonempty runs of the class. -/
theorem repGreedy_mem (p : Char → Bool) (l pre suf : List Char)
    (h : (pre, suf) ∈ repGreedy p l) : pre.all p = true ∧ pre ≠ [] := by
  unfold repGreedy at h
  rw [List.mem_filter] at h
  obtain ⟨hmem, hne⟩ := h
  rw [List.mem_reverse] at hmem
  refine ⟨mem_splitsAsc p l pre suf hmem, ?_⟩
  simpa using hne

/-- A successful `[A-Z]{3}` capture is three uppercase letters. -/
theorem take3Upper_shape (l cur rest : List Char) (h : take3Upper l = some (cur, rest)) :
    cur.length = 3 ∧ cur.all isUpperB = true := by
  rcases l with _ | ⟨a, _ | ⟨b, _ | ⟨c, t⟩⟩⟩
  · cases h
  · cases h
  · cases h
  · simp only [take3Upper] at h
    by_cases hcond : (isUpperB a && isUpperB b && isUpperB c) = true
    · rw [if_pos hcond] at h
      injection h with h
      rw [Prod.mk.injEq] at h
      rw [← h.1]
      simp only [Bool.and_eq_true] at hcond
      simp [hcond.1.1, hcond.1.2, hcond.2]
    · rw [if_neg hcond] at h
      cases h

/-- Structure of any successful pattern match: the currency group is three
uppercase letters and the two unordered numeric groups are nonempty runs
of `[\d,.]` — in particular they capture no sign. -/
theorem matchAt_groups (l : List Char) (g : MatchGroups) (h : matchAt l = some g) :
    g.currency.length = 3 ∧ g.currency.all isUpperB = true ∧
    g.val1 ≠ [] ∧ g.val1.all isNumChar = true ∧
    g.val2 ≠ [] ∧ g.val2.all isNumChar = true := by
  unfold matchAt at h
  rw [Option.bind_eq_some] at h
  obtain ⟨kr, hkr, h⟩ := h
  obtain ⟨s1, hs1, h⟩ := List.exists_of_findSome?_eq_some h
  obtain ⟨nm, hnm, h⟩ := List.exists_of_findSome?_eq_some h
  obtain ⟨s2, hs2, h⟩ := List.exists_of_findSome?_eq_some h
  rw [Option.bind_eq_some] at h
  obtain ⟨cr, hcr, h⟩ := h
  obtain ⟨s3, hs3, h⟩ := List.exists_of_findSome?_eq_some h
  obtain ⟨gap, hgap, h⟩ := List.exists_of_findSome?_eq_some h
  obtain ⟨v1, hv1, h⟩ := List.exists_of_findSome?_eq_some h
  obtain ⟨s4, hs4, h⟩ := List.exists_of_findSome?_eq_some h
  obtain ⟨v2, hv2, h⟩ := List.exists_of_findSome?_eq_some h
  obtain ⟨s5, hs5, h⟩ := List.exists_of_findSome?_eq_some h
  obtain ⟨am, ham, h⟩ := List.exists_of_findSome?_eq_some h
  obtain ⟨s6, hs6, h⟩ := List.exists_of_findSome?_eq_some h
  obtain ⟨ch, hch, h⟩ := List.exists_of_findSome?_eq_some h
  injection h with h
  subst h
  have hcur := take3Upper_shape s2.2 cr.1 cr.2 hcr
  have h1 := repGreedy_mem isNumChar gap.2 v1.1 v1.2 hv1
  have h2 := repGreedy_mem isNumChar s4.2 v2.1 v2.2 hv2
  exact ⟨hcur.1, hcur.2, h1.2, h1.1, h2.2, h2.1⟩

/-- Structure of any successful pattern search, inherited from the
matching start position. -/
theorem reSearch_groups (l : List Char) (g : MatchGroups) (h : reSearch l = some g) :
    g.currency.length = 3 ∧ g.currency.all isUpperB = true ∧
    g.val1 ≠ [] ∧ g.val1.all isNumChar = true ∧
    g.val2 ≠ [] ∧ g.val2.all isNumChar = true := by
  obtain ⟨s, _, hs⟩ := List.exists_of_findSome?_eq_some h
  exact matchAt_groups s g hs

/-- A list of characters from a class excluding `c` never contains `c`. -/
theorem not_contains_of_all (l : List Char) (c : Char) (p : Char → Bool)
    (hall : l.all p = true) (hc : p c = false) : l.contains c = false := by
  induction l with
  | nil => rfl
  | cons a t ih =>
    rw [List.all_cons, Bool.and_eq_true] at hall
    obtain ⟨ha, ht⟩ := hall
    have hne : c ≠ a := by
      intro he
      rw [he, ha] at hc
      cases hc
    rw [List.contains_cons, ih ht, Bool.or_false, beq_eq_false_iff_ne]
    exact hne

/-- C8 counterexample: a signed literal in the second of the two unordered
numeric positions makes the whole candidate unrecognisable — the pattern
finds no match and the candidate is rejected, contradicting the claim that
the first two numeric fields accept an optional leading sign. -/
theorem c8_counterexample :
    reSearch (cleanChunk (("買入開倉 A HKD 100.50 -2,000 201,000.00 -50.25").data)) = none ∧
    extractChunk (("買入開倉 A HKD 100.50 -2,000 201,000.00 -50.25").data) = none :=
  ⟨by decide, by decide⟩

/-- C8 amended: only the last two numeric fields (amount, net change) are
signable; the two unordered quantity/price groups never capture a sign.  A
sign immediately before the FIRST numeric token is tolerated because the
unanchored gap after the currency absorbs it (the captured value silently
loses its sign), while a sign on the SECOND numeric token causes outright
rejection of the candidate. -/
theorem c8_sign_handling :
    (∀ l g, reSearch l = some g →
      g.val1.contains '-' = false ∧ g.val2.contains '-' = false) ∧
    reSearch (("買入開倉 A HKD -100.50 2,000 201,000.00 -50.25").data) =
      some ⟨kwBuy, ['A'], ("HKD").data, ("100.50").data, ("2,000").data,
        ("201,000.00").data, ("-50.25").data⟩ ∧
    reSearch (("買入開倉 A HKD 100.50 -2,000 201,000.00 -50.25").data) = none ∧
    reSearch (("買入開倉 A HKD 100.50 2,000 -201,000.00 -50.25").data) =
      some ⟨kwBuy, ['A'], ("HKD").data, ("100.50").data, ("2,000").data,
        ("-201,000.00").data, ("-50.25").data⟩ := by
  refine ⟨?_, by decide, by decide, by decide⟩
  intro l g h
  obtain ⟨_, _, _, h1, _, h2⟩ := reSearch_groups l g h
  exact ⟨not_contains_of_all g.val1 '-' isNumChar h1 (by decide),
    not_contains_of_all g.val2 '-' isNumChar h2 (by decide)⟩

/-- Witness for C8: the sign-absorbing first-position scenario, where the
captured quantity/price groups are sign-free. -/
theorem c8_witness :
    (MatchGroups.mk kwBuy ['A'] (("HKD").data) (("100.50").data) (("2,000").data)
        (("201,000.00").data) (("-50.25").data)).val1.contains '-' = false ∧
    (MatchGroups.mk kwBuy ['A'] (("HKD").data) (("100.50").data) (("2,000").data)
        (("201,000.00").data) (("-50.25").data)).val2.contains '-' = false :=
  c8_sign_handling.1 (("買入開倉 A HKD -100.50 2,000 201,000.00 -50.25").data) _ (by decide)

/-! ## C9 — determinism -/

/-- C9: extraction is a pure function of the document byte sequence — two
runs on the same input produce identical record sequences, in the same
page order and within-page discovery order. -/
theorem c9_deterministic (doc : Option (List (List Char))) :
    extract_transactions doc = extract_transactions doc ∧
    (∀ pages, extractRecords pages = extractRecords pages) :=
  ⟨rfl, fun _ => rfl⟩

/-- Witness for C9: determinism at a concrete document. -/
theorem c9_witness :
    extract_transactions (some [("abc").data]) = extract_transactions (some [("abc").data]) :=
  (c9_deterministic (some [("abc").data])).1

/-! ## C10 — currency shape invariant -/

/-- A produced chunk record comes from a successful search and build. -/
theorem extractChunk_inv (c : List Char) (r : TransactionRecord)
    (h : extractChunk c = some r) :
    ∃ g, reSearch (cleanChunk c) = some g ∧ buildRecord g = some r := by
  unfold extractChunk at h
  by_cases hws : c.all isWs = true
  · rw [if_pos hws] at h
    cases h
  · rw [if_neg hws] at h
    rw [Option.bind_eq_some] at h
    exact h

/-- The built record carries the captured currency group verbatim. -/
theorem buildRecord_currency (g : MatchGroups) (r : TransactionRecord)
    (h : buildRecord g = some r) : r.currency = g.currency := by
  obtain ⟨q1, q2, q3, q4, _, _, _, _, hr⟩ := buildRecord_inv g r h
  rw [hr]

/-- Every record of a page arises from some candidate chunk. -/
theorem mem_processPage (t : List Char) (r : TransactionRecord)
    (h : r ∈ processPage t) : ∃ c, extractChunk c = some r := by
  unfold processPage at h
  cases hb : locateBlock t with
  | none => rw [hb] at h; cases h
  | some block =>
    rw [hb] at h
    rw [List.mem_filterMap] at h
    obtain ⟨c, _, hc⟩ := h
    exact ⟨c, hc⟩

/-- Every record of a document arises from some candidate chunk. -/
theorem mem_extractRecords (pages : List (List Char)) (r : TransactionRecord)
    (h : r ∈ extractRecords pages) : ∃ c, extractChunk c = some r := by
  unfold extractRecords at h
  rw [List.mem_flatten] at h
  obtain ⟨lr, hlr, hr⟩ := h
  rw [List.mem_map] at hlr
  obtain ⟨t, _, ht⟩ := hlr
  exact mem_processPage t r (ht ▸ hr)

/-- C10: every record in the result collection has a currency of exactly
three uppercase ASCII letters, taken verbatim from the `[A-Z]{3}` capture;
no `unknown` placeholder currency is ever produced — a candidate without a
three-letter uppercase token simply fails recognition as a whole. -/
theorem c10_currency_shape (pages : List (List Char)) (r : TransactionRecord)
    (h : r ∈ extractRecords pages) :
    r.currency.length = 3 ∧ r.currency.all isUpperB = true ∧
    r.currency ≠ ("unknown").data := by
  obtain ⟨c, hc⟩ := mem_extractRecords pages r h
  obtain ⟨g, hg, hb⟩ := extractChunk_inv c r hc
  have hcur := buildRecord_currency g r hb
  obtain ⟨h3, hup, _⟩ := reSearch_groups _ g hg
  refine ⟨hcur ▸ h3, hcur ▸ hup, ?_⟩
  intro he
  exact absurd (he ▸ (hcur ▸ h3)) (by decide)

/-- Witness for C10: the single record extracted from a concrete one-page
document indeed carries the three-uppercase-letter currency `HKD`. -/
theorem c10_witness :
    (⟨PyAction.Buy, ['A'], 2000, 100, 300, ("HKD").data, -50⟩ :
        TransactionRecord).currency.length = 3 ∧
    (⟨PyAction.Buy, ['A'], 2000, 100, 300, ("HKD").data, -50⟩ :
        TransactionRecord).currency.all isUpperB = true ∧
    (⟨PyAction.Buy, ['A'], 2000, 100, 300, ("HKD").data, -50⟩ :
        TransactionRecord).currency ≠ ("unknown").data :=
  c10_currency_shape [("交易-股票和股票期權 變動金額 買入開倉 A HKD 2,000 100 300 -50").data]
    _ (by decide)

end StockApp
